import Mathlib

/-!
Verification development for the PlaywrightChatRunner action-plan core:
a shallow embedding of `src/actionDsl.ts` (schema and validator) and
`src/playwrightRunner.ts` (plan runner), with theorems about their behavior.

Untrusted JSON-like input is modelled by `JValue`; the browser, the WHATWG
URL parser and the temporary directory are external collaborators and are
modelled as explicit parameters of a `BrowserSession` record, quantified
over in the theorems.
-/

namespace PCR

/-- JSON-like runtime values, the validator's untrusted input
(`raw: unknown` in `validateActionPlan`). -/
inductive JValue where
  | null : JValue
  | bool (b : Bool) : JValue
  | num (n : Int) : JValue
  | str (s : String) : JValue
  | arr (elems : List JValue) : JValue
  | obj (fields : List (String × JValue)) : JValue

/-- JavaScript `typeof v === 'object' && v !== null`: objects and arrays
qualify, primitives and null do not. -/
def JValue.isObjectLike : JValue → Bool
  | .obj _ => true
  | .arr _ => true
  | _ => false

/-- Property read `v.key` on a runtime value: defined only on plain
objects (arrays have no such named fields here), `none` models
`undefined`. Duplicate keys are not produced by JSON parsing, the first
binding wins. -/
def JValue.get : JValue → String → Option JValue
  | .obj fields, key => fields.lookup key
  | _, _ => none

/-- `typeof x === 'string'` on a property read: the string payload when
the field holds a string, otherwise `none`. -/
def asString : Option JValue → Option String
  | some (.str s) => some s
  | _ => none

/-- `typeof x === 'string' && x` : the field holds a non-empty string. -/
def nonEmptyString (v : Option JValue) : Bool :=
  match v with
  | some (.str s) => s ≠ ""
  | _ => false

/-- `typeof x === 'string'` as a Bool (empty string allowed). -/
def isStringVal (v : Option JValue) : Bool :=
  match v with
  | some (.str _) => true
  | _ => false

/-- `AVAILABLE_TOOLS` from `actionDsl.ts`: the closed action vocabulary. -/
def AVAILABLE_TOOLS : List String :=
  ["goto", "clickText", "type", "waitForText", "extractText",
   "snapshotText", "screenshot", "closeBrowser"]

/-- The `ActionStep` interface from `actionDsl.ts`. `action` is declared
required in TS but reaches the runner through an unchecked cast, so at
runtime every field may be absent; absence (`undefined`) is `none`. -/
structure ActionStep where
  action : Option String := none
  url : Option String := none
  text : Option String := none
  selector : Option String := none
  value : Option String := none
  name : Option String := none
deriving DecidableEq, Repr

/-- The `ActionPlan` interface from `actionDsl.ts`. -/
structure ActionPlan where
  steps : List ActionStep
deriving DecidableEq, Repr

/-- The runtime meaning of the cast `obj.steps as ActionStep[]`: the
runner reads each field expecting `string | undefined`, so each field is
the string payload when present and string-typed, else `undefined`. -/
def toActionStep (j : JValue) : ActionStep :=
  { action := asString (j.get "action"),
    url := asString (j.get "url"),
    text := asString (j.get "text"),
    selector := asString (j.get "selector"),
    value := asString (j.get "value"),
    name := asString (j.get "name") }

/-- Every error message pushed by `validateStep` is built with the
template `Step ${index}: ...`. -/
def stepMsg (index : Nat) (msg : String) : String :=
  "Step " ++ toString index ++ ": " ++ msg

/-- `validateStep` from `actionDsl.ts`, lines 25-82: per-step validation
against the caller-supplied `enabledTools` allow-list. -/
def validateStep (step : JValue) (index : Nat) (enabledTools : List String) :
    List String :=
  if ¬ step.isObjectLike then [stepMsg index "must be an object"]
  else
    match asString (step.get "action") with
    | none => [stepMsg index "\"action\" must be a string"]
    | some action =>
      if ¬ enabledTools.contains action then
        [stepMsg index ("action \"" ++ action ++ "\" is not in the enabled tools list")]
      else if action = "goto" then
        if ¬ nonEmptyString (step.get "url") then
          [stepMsg index "\"goto\" requires a non-empty \"url\" string"]
        else []
      else if action = "clickText" then
        if ¬ nonEmptyString (step.get "text") then
          [stepMsg index "\"clickText\" requires a non-empty \"text\" string"]
        else []
      else if action = "type" then
        (if ¬ nonEmptyString (step.get "selector") then
          [stepMsg index "\"type\" requires a non-empty \"selector\" string"]
        else []) ++
        (if ¬ isStringVal (step.get "value") then
          [stepMsg index "\"type\" requires a \"value\" string"]
        else [])
      else if action = "waitForText" then
        if ¬ nonEmptyString (step.get "text") then
          [stepMsg index "\"waitForText\" requires a non-empty \"text\" string"]
        else []
      else if action = "extractText" then
        if ¬ nonEmptyString (step.get "selector") then
          [stepMsg index "\"extractText\" requires a non-empty \"selector\" string"]
        else []
      else if action = "snapshotText" then []
      else if action = "closeBrowser" then []
      else if action = "screenshot" then
        if ¬ nonEmptyString (step.get "name") then
          [stepMsg index "\"screenshot\" requires a non-empty \"name\" string"]
        else []
      else
        [stepMsg index ("unknown action \"" ++ action ++ "\"")]

/-- The result record of `validateActionPlan`:
`{ valid: boolean; errors: string[]; plan?: ActionPlan }`. -/
structure ValidationResult where
  valid : Bool
  errors : List String
  plan : Option ActionPlan := none
deriving DecidableEq, Repr

/-- `Array.isArray(obj.steps)` : the `steps` field holds an array. -/
def jGetArr (raw : JValue) (key : String) : Option (List JValue) :=
  match raw.get key with
  | some (.arr elems) => some elems
  | _ => none

/-- `validateActionPlan` from `actionDsl.ts`, lines 84-111. -/
def validateActionPlan (raw : JValue) (enabledTools : List String) :
    ValidationResult :=
  if ¬ raw.isObjectLike then
    { valid := false, errors := ["Plan must be a JSON object"] }
  else
    match jGetArr raw "steps" with
    | none => { valid := false, errors := ["\"steps\" must be an array"] }
    | some stepsJ =>
      let errors := stepsJ.enum.flatMap fun p => validateStep p.2 p.1 enabledTools
      if errors ≠ [] then { valid := false, errors := errors }
      else { valid := true, errors := [],
             plan := some { steps := stepsJ.map toActionStep } }

/-- The `ExecutionResult` interface from `playwrightRunner.ts`. The
`action` field echoes `step.action`, which through the unchecked cast may
be absent at runtime, hence `Option`. -/
structure ExecutionResult where
  action : Option String
  success : Bool
  data : Option String := none
  error : Option String := none
deriving DecidableEq, Repr

/-- One invocation of the underlying Playwright page API made by
`executeStep`. Payloads read with the TS non-null assertion (`step.text!`
etc.) may be `undefined` at runtime and are carried as `Option`. -/
inductive BrowserCall where
  | goto (url : String)
  | clickText (text : Option String)
  | fill (selector : Option String) (value : Option String)
  | waitForText (text : Option String)
  | innerText (selector : Option String)
  | bodyText
  | screenshot (path : String)
deriving DecidableEq, Repr

/-- Which arm of `executeStep`'s switch produced the result. `gotoNoUrl`
is the defensive `if (!step.url)` sub-branch inside the `goto` case;
`unknown` is the `default` arm. -/
inductive BranchTag where
  | goto | gotoNoUrl | clickText | typeInto | waitForText
  | extractText | snapshotText | screenshot | closeBrowser | unknown
deriving DecidableEq, Repr

/-- Result of one `executeStep` call together with the trace of browser
calls it made and the switch arm that ran. -/
structure StepOutcome where
  result : ExecutionResult
  calls : List BrowserCall
  tag : BranchTag
deriving DecidableEq, Repr

/-- The external collaborators of one `executePlan` invocation:
`launch` is `chromium.launch`, `openPage` is `newContext`+`newPage`
combined (each `.error e` models a throw with message `e`), `parseURL`
is the platform WHATWG parser (`new URL(u)`), returning the `protocol`
(with trailing colon) or the parse-error message, `answer` is the
outcome of each Playwright page call, `close` is `browser.close`, and
`tmpdir` is `os.tmpdir()`. -/
structure BrowserSession where
  launch : Except String Unit
  openPage : Except String Unit
  parseURL : String → Except String String
  answer : BrowserCall → Except String String
  close : Except String Unit
  tmpdir : String

/-- The character class `[a-zA-Z0-9_.-]` of the sanitizing regex. -/
def isSafeChar (c : Char) : Bool :=
  ('a'.toNat ≤ c.toNat && c.toNat ≤ 'z'.toNat) ||
  ('A'.toNat ≤ c.toNat && c.toNat ≤ 'Z'.toNat) ||
  ('0'.toNat ≤ c.toNat && c.toNat ≤ '9'.toNat) ||
  c == '_' || c == '.' || c == '-'

/-- Node's POSIX `path.basename` (no extension argument): drop trailing
separators, then return the final path component. `basename "/" = ""`. -/
def basename (p : String) : String :=
  String.mk (((p.toList.reverse.dropWhile (· == '/')).takeWhile (· != '/')).reverse)

/-- `path.basename(name).replace(/[^a-zA-Z0-9_.-]/g, '_')` from the
screenshot arm of `executeStep`. -/
def sanitizeName (n : String) : String :=
  String.mk ((basename n).toList.map fun c => if isSafeChar c then c else '_')

/-- `path.join(os.tmpdir(), safeName + '.png')`. The sanitized name
contains no separators and never reduces to `.` or `..`, so the join is
plain concatenation with one separator. -/
def screenshotPath (tmpdir n : String) : String :=
  tmpdir ++ "/" ++ sanitizeName n ++ ".png"

/-- JS string interpolation of a possibly-`undefined` value. -/
def undefStr : Option String → String
  | none => "undefined"
  | some x => x

/-- `PlaywrightRunner.executeStep` (lines 51-117), instrumented with the
trace of browser calls made and the switch arm taken. Every throw from a
browser call is caught by the arm's surrounding try/catch and becomes a
failed result carrying the message. In the screenshot arm, a step whose
`name` is absent makes Node's `path.basename(undefined)` throw a
TypeError before any browser call; the catch turns it into a failed
result. -/
def executeStepT (s : BrowserSession) (step : ActionStep) : StepOutcome :=
  let a := step.action
  if a = some "goto" then
    match step.url with
    | none =>
      ⟨⟨a, false, none, some "\"url\" is required for goto"⟩, [], .gotoNoUrl⟩
    | some u =>
      if u = "" then
        ⟨⟨a, false, none, some "\"url\" is required for goto"⟩, [], .gotoNoUrl⟩
      else
        match s.parseURL u with
        | .error m =>
          ⟨⟨a, false, none, some ("Invalid URL: \"" ++ u ++ "\" - " ++ m)⟩,
           [], .goto⟩
        | .ok protocol =>
          if protocol ≠ "http:" ∧ protocol ≠ "https:" then
            ⟨⟨a, false, none,
              some ("Only http and https URLs are allowed, got \""
                    ++ protocol ++ "\"")⟩, [], .goto⟩
          else
            match s.answer (.goto u) with
            | .ok _ => ⟨⟨a, true, none, none⟩, [.goto u], .goto⟩
            | .error e => ⟨⟨a, false, none, some e⟩, [.goto u], .goto⟩
  else if a = some "clickText" then
    match s.answer (.clickText step.text) with
    | .ok _ => ⟨⟨a, true, none, none⟩, [.clickText step.text], .clickText⟩
    | .error e => ⟨⟨a, false, none, some e⟩, [.clickText step.text], .clickText⟩
  else if a = some "type" then
    match s.answer (.fill step.selector step.value) with
    | .ok _ => ⟨⟨a, true, none, none⟩, [.fill step.selector step.value], .typeInto⟩
    | .error e =>
      ⟨⟨a, false, none, some e⟩, [.fill step.selector step.value], .typeInto⟩
  else if a = some "waitForText" then
    match s.answer (.waitForText step.text) with
    | .ok _ => ⟨⟨a, true, none, none⟩, [.waitForText step.text], .waitForText⟩
    | .error e =>
      ⟨⟨a, false, none, some e⟩, [.waitForText step.text], .waitForText⟩
  else if a = some "extractText" then
    match s.answer (.innerText step.selector) with
    | .ok t => ⟨⟨a, true, some t, none⟩, [.innerText step.selector], .extractText⟩
    | .error e =>
      ⟨⟨a, false, none, some e⟩, [.innerText step.selector], .extractText⟩
  else if a = some "snapshotText" then
    match s.answer .bodyText with
    | .ok t => ⟨⟨a, true, some t, none⟩, [.bodyText], .snapshotText⟩
    | .error e => ⟨⟨a, false, none, some e⟩, [.bodyText], .snapshotText⟩
  else if a = some "screenshot" then
    match step.name with
    | none =>
      ⟨⟨a, false, none,
        some "The \"path\" argument must be of type string. Received undefined"⟩,
       [], .screenshot⟩
    | some n =>
      let p := screenshotPath s.tmpdir n
      match s.answer (.screenshot p) with
      | .ok _ => ⟨⟨a, true, some p, none⟩, [.screenshot p], .screenshot⟩
      | .error e => ⟨⟨a, false, none, some e⟩, [.screenshot p], .screenshot⟩
  else if a = some "closeBrowser" then
    ⟨⟨a, true, none, none⟩, [], .closeBrowser⟩
  else
    ⟨⟨a, false, none, some ("Unknown action: " ++ undefStr a)⟩, [], .unknown⟩

/-- The result alone of one `executeStep` call. -/
def executeStep (s : BrowserSession) (step : ActionStep) : ExecutionResult :=
  (executeStepT s step).result

/-- The step loop of `executePlan` (lines 24-31): one result is pushed
per step; a `closeBrowser` step pushes its result and then `break`s. -/
def runSteps (s : BrowserSession) :
    List ActionStep → List ExecutionResult × List BrowserCall
  | [] => ([], [])
  | st :: rest =>
    let o := executeStepT s st
    if st.action = some "closeBrowser" then ([o.result], o.calls)
    else
      let (rs, cs) := runSteps s rest
      (o.result :: rs, o.calls ++ cs)

/-- Observable outcome of one `executePlan` call: the returned results,
the browser calls made by steps, and whether `browser.close()` was
invoked in the `finally` block (`browser` was non-null there). -/
structure RunOutcome where
  results : List ExecutionResult
  calls : List BrowserCall
  closed : Bool
deriving DecidableEq, Repr

/-- `PlaywrightRunner.executePlan` (lines 14-49). Only `launch` and
`openPage` can throw into the catch block, which pushes the single
synthetic `browser-init` result; `executeStep` never throws. The
`finally` block closes the browser iff it was launched and discards the
outcome of `close`, so the returned results never depend on `s.close`. -/
def executePlanT (s : BrowserSession) (plan : ActionPlan) : RunOutcome :=
  match s.launch with
  | .error e =>
    { results := [⟨some "browser-init", false, none, some e⟩],
      calls := [], closed := false }
  | .ok _ =>
    match s.openPage with
    | .error e =>
      { results := [⟨some "browser-init", false, none, some e⟩],
        calls := [], closed := true }
    | .ok _ =>
      { results := (runSteps s plan.steps).1,
        calls := (runSteps s plan.steps).2, closed := true }

/-- The value returned to the caller of `executePlan`. -/
def executePlan (s : BrowserSession) (plan : ActionPlan) : List ExecutionResult :=
  (executePlanT s plan).results

/-- The prefix of the plan the runner attempts: everything up to and
including the first `closeBrowser` step. -/
def attemptedSteps : List ActionStep → List ActionStep
  | [] => []
  | st :: rest =>
    if st.action = some "closeBrowser" then [st]
    else st :: attemptedSteps rest

/-- A session in which every external call succeeds: URL parsing yields
an `http:` protocol and every page call answers with the empty string;
the temporary directory is `/tmp`. -/
def allOkSession : BrowserSession :=
  { launch := .ok (), openPage := .ok (),
    parseURL := fun _ => .ok "http:",
    answer := fun _ => .ok "",
    close := .ok (), tmpdir := "/tmp" }

/-- The sanitizer described by the spec's words for claim C3, for
comparison with the source's `sanitizeName`: *strip* (delete) every
character outside `[A-Za-z0-9_.-]`. -/
def stripSanitize (n : String) : String :=
  String.mk (n.toList.filter isSafeChar)

/-- The switch arm of `executeStep` that handles a given action kind. -/
def kindTag : String → BranchTag
  | "goto" => .goto
  | "clickText" => .clickText
  | "type" => .typeInto
  | "waitForText" => .waitForText
  | "extractText" => .extractText
  | "snapshotText" => .snapshotText
  | "screenshot" => .screenshot
  | "closeBrowser" => .closeBrowser
  | _ => .unknown

/-- A session whose WHATWG parser recognises one `file:` URL and rejects
everything else as unparseable, as `new URL` does. -/
def fileUrlSession : BrowserSession :=
  { allOkSession with
    parseURL := fun u =>
      if u = "file:///etc/passwd" then .ok "file:" else .error "Invalid URL" }

/-- A session in which `chromium.launch` throws. -/
def launchFailSession : BrowserSession :=
  { allOkSession with launch := .error "browserType.launch failed" }

/-- A session in which the browser launches but page creation throws. -/
def pageFailSession : BrowserSession :=
  { allOkSession with openPage := .error "newPage failed" }

/-- A concrete navigation step used by witnesses. -/
def gotoStep : ActionStep :=
  { action := some "goto", url := some "https://example.com" }

/-- A concrete close-session step used by witnesses. -/
def closeStep : ActionStep :=
  { action := some "closeBrowser" }

/-- A concrete screenshot step used by witnesses. -/
def shotStep : ActionStep :=
  { action := some "screenshot", name := some "shot" }

/-- The three-step plan `[goto, closeBrowser, screenshot]`. -/
def demoPlan : ActionPlan :=
  { steps := [gotoStep, closeStep, shotStep] }

end PCR

namespace PCR

/-- C10: the validator accepts screenshot names such as `"/"` and `"//"`
(non-empty strings), yet both sanitize to the empty filename, so the
screenshot path degenerates to the temp directory joined with `".png"`
and two distinct accepted names collide on the same file path. -/
theorem screenshot_sanitized_name_can_be_empty :
    validateStep (.obj [("action", .str "screenshot"), ("name", .str "/")]) 0
      AVAILABLE_TOOLS = []
    ∧ validateStep (.obj [("action", .str "screenshot"), ("name", .str "//")]) 0
      AVAILABLE_TOOLS = []
    ∧ sanitizeName "/" = ""
    ∧ (∀ tmpdir : String, screenshotPath tmpdir "/" = tmpdir ++ "/.png")
    ∧ (executeStepT allOkSession
        { action := some "screenshot", name := some "/" }).result.data
      = some "/tmp/.png"
    ∧ ("/" : String) ≠ "//"
    ∧ screenshotPath "/tmp" "/" = screenshotPath "/tmp" "//" := by
  refine ⟨by decide, by decide, by decide, ?_, by decide, by decide, by decide⟩
  intro tmpdir
  have h : sanitizeName "/" = "" := by decide
  simp only [screenshotPath, h, String.append_empty, String.append_assoc]
  have hp : ("/" : String) ++ ".png" = "/.png" := by decide
  rw [hp]

/-- C3 counterexample: the code does not *strip* unsafe characters, it
replaces them with `'_'` (after `path.basename`): for the requested name
`evil<script>` the successful result's data is `/tmp/evil_script_.png`,
not the stripped `/tmp/evilscript.png` the claim describes. -/
theorem screenshot_strip_claim_counterexample :
    (executeStepT allOkSession
        { action := some "screenshot", name := some "evil<script>" }).result
      = ⟨some "screenshot", true, some "/tmp/evil_script_.png", none⟩
    ∧ "/tmp/" ++ stripSanitize "evil<script>" ++ ".png" = "/tmp/evilscript.png"
    ∧ (executeStepT allOkSession
        { action := some "screenshot", name := some "evil<script>" }).result.data
      ≠ some ("/tmp/" ++ stripSanitize "evil<script>" ++ ".png") := by
  decide

/-- C3 (amended): a screenshot step's name is sanitized by taking its
final path component (`path.basename`) and replacing every character
outside `[A-Za-z0-9_.-]` with `'_'`; the successful result's data is
exactly the temp directory joined with the sanitized name plus `.png`,
and that filename component contains only `[A-Za-z0-9_.-]` characters. -/
theorem screenshot_path_sanitized (s : BrowserSession) (step : ActionStep)
    (n r : String) (ha : step.action = some "screenshot")
    (hn : step.name = some n)
    (hok : s.answer (.screenshot (screenshotPath s.tmpdir n)) = .ok r) :
    executeStep s step
      = ⟨some "screenshot", true, some (screenshotPath s.tmpdir n), none⟩
    ∧ screenshotPath s.tmpdir n = s.tmpdir ++ "/" ++ sanitizeName n ++ ".png"
    ∧ sanitizeName n
      = String.mk ((basename n).toList.map fun c => if isSafeChar c then c else '_')
    ∧ ∀ c ∈ (sanitizeName n ++ ".png").toList, isSafeChar c = true := by
  refine ⟨?_, rfl, rfl, ?_⟩
  · simp [executeStep, executeStepT, ha, hn, hok]
  · intro c hc
    have hc' : c ∈ (sanitizeName n).data ∨ c ∈ (".png" : String).data := by
      have : (sanitizeName n ++ ".png").toList
          = (sanitizeName n).data ++ (".png" : String).data := by
        simp [String.toList]
      rw [this] at hc
      exact List.mem_append.mp hc
    rcases hc' with hc' | hc'
    · simp only [sanitizeName] at hc'
      rcases List.mem_map.mp hc' with ⟨c0, _, hmap⟩
      by_cases hs : isSafeChar c0
      · simp [hs] at hmap; simpa [← hmap] using hs
      · simp [hs] at hmap; subst hmap; decide
    · have hall : ∀ x ∈ (".png" : String).data, isSafeChar x = true := by decide
      exact hall c hc'

/-- Witness for `screenshot_path_sanitized` at the concrete step
`{action: "screenshot", name: "shot"}` in `allOkSession`. -/
theorem screenshot_path_sanitized_witness :
    shotStep.action = some "screenshot"
    ∧ executeStep allOkSession shotStep
      = ⟨some "screenshot", true, some "/tmp/shot.png", none⟩ := by
  have h := screenshot_path_sanitized allOkSession shotStep "shot" "" rfl rfl rfl
  exact ⟨rfl, by rw [h.1]; decide⟩

/-- C2: a `goto` step whose URL is empty, fails to parse, or parses to a
protocol other than exactly `http:` or `https:` yields a failed result
whose error message carries the offending URL or protocol, and the
browser navigation call is never made (the call trace is empty). -/
theorem goto_rejects_nonNetwork_urls (s : BrowserSession) (step : ActionStep)
    (u : String) (ha : step.action = some "goto") (hu : step.url = some u) :
    (u = "" →
      executeStep s step
        = ⟨some "goto", false, none, some "\"url\" is required for goto"⟩
      ∧ (executeStepT s step).calls = [])
    ∧ (∀ m, u ≠ "" → s.parseURL u = .error m →
      executeStep s step
        = ⟨some "goto", false, none,
           some ("Invalid URL: \"" ++ u ++ "\" - " ++ m)⟩
      ∧ (executeStepT s step).calls = [])
    ∧ (∀ protocol, u ≠ "" → s.parseURL u = .ok protocol →
        protocol ≠ "http:" → protocol ≠ "https:" →
      executeStep s step
        = ⟨some "goto", false, none,
           some ("Only http and https URLs are allowed, got \""
                 ++ protocol ++ "\"")⟩
      ∧ (executeStepT s step).calls = []) := by
  refine ⟨?_, ?_, ?_⟩
  · intro he
    subst he
    simp [executeStep, executeStepT, ha, hu]
  · intro m hne hp
    simp [executeStep, executeStepT, ha, hu, hne, hp]
  · intro protocol hne hp h1 h2
    simp [executeStep, executeStepT, ha, hu, hne, hp, h1, h2]

/-- Witness for `goto_rejects_nonNetwork_urls`: `file:///etc/passwd`
(disallowed scheme) and `not a url` (unparseable) in `fileUrlSession`. -/
theorem goto_rejects_nonNetwork_urls_witness :
    (executeStep fileUrlSession
        { action := some "goto", url := some "file:///etc/passwd" }
      = ⟨some "goto", false, none,
         some "Only http and https URLs are allowed, got \"file:\""⟩
    ∧ (executeStepT fileUrlSession
        { action := some "goto", url := some "file:///etc/passwd" }).calls = [])
    ∧ (executeStep fileUrlSession
        { action := some "goto", url := some "not a url" }
      = ⟨some "goto", false, none,
         some "Invalid URL: \"not a url\" - Invalid URL"⟩
    ∧ (executeStepT fileUrlSession
        { action := some "goto", url := some "not a url" }).calls = []) := by
  have h1 := goto_rejects_nonNetwork_urls fileUrlSession
    { action := some "goto", url := some "file:///etc/passwd" }
    "file:///etc/passwd" rfl rfl
  have h2 := goto_rejects_nonNetwork_urls fileUrlSession
    { action := some "goto", url := some "not a url" }
    "not a url" rfl rfl
  exact ⟨h1.2.2 "file:" (by decide) rfl (by decide) (by decide),
         h2.2.1 "Invalid URL" (by decide) rfl⟩

/-- C6 counterexample: a step whose action `deleteEverything` is not in
the schema, validated against the full allow-list, is rejected with the
*"is not in the enabled tools list"* message, not a distinct "unknown
action" message — the allow-list check fires first, so a non-schema
action only reaches the "unknown action" branch when the caller's
allow-list itself contains it. -/
theorem unknown_action_message_counterexample :
    validateStep (.obj [("action", .str "deleteEverything")]) 0 AVAILABLE_TOOLS
      = ["Step 0: action \"deleteEverything\" is not in the enabled tools list"]
    ∧ validateStep (.obj [("action", .str "deleteEverything")]) 0 AVAILABLE_TOOLS
      ≠ [stepMsg 0 ("unknown action \"" ++ "deleteEverything" ++ "\"")] := by
  decide

/-- C6 (amended): a step whose action is absent from the caller's
allow-list is rejected with the "is not in the enabled tools list"
message; a step whose action is in the allow-list but not in the full
schema is rejected with the distinct "unknown action" message; the two
messages always differ (their lengths differ by 25 for the same action),
and both cases produce a non-empty error list. -/
theorem validateStep_unknown_vs_disabled (step : JValue) (index : Nat)
    (tools : List String) (action : String)
    (ho : step.isObjectLike = true)
    (ha : asString (step.get "action") = some action) :
    (action ∉ tools →
      validateStep step index tools
        = [stepMsg index
            ("action \"" ++ action ++ "\" is not in the enabled tools list")])
    ∧ (action ∈ tools → action ∉ AVAILABLE_TOOLS →
      validateStep step index tools
        = [stepMsg index ("unknown action \"" ++ action ++ "\"")])
    ∧ stepMsg index ("unknown action \"" ++ action ++ "\"")
      ≠ stepMsg index
          ("action \"" ++ action ++ "\" is not in the enabled tools list") := by
  refine ⟨?_, ?_, ?_⟩
  · intro hmem
    simp [validateStep, ho, ha, hmem]
  · intro hmem hsch
    simp only [AVAILABLE_TOOLS, List.mem_cons, List.not_mem_nil, or_false,
      not_or] at hsch
    obtain ⟨h1, h2, h3, h4, h5, h6, h7, h8⟩ := hsch
    simp [validateStep, ho, ha, hmem, h1, h2, h3, h4, h5, h6, h7, h8]
  · intro heq
    have hlen := congrArg String.length heq
    have l1 : ("unknown action \"" : String).length = 16 := by decide
    have l2 : ("\"" : String).length = 1 := by decide
    have l3 : ("action \"" : String).length = 8 := by decide
    have l4 : ("\" is not in the enabled tools list" : String).length = 34 := by
      decide
    simp only [stepMsg, String.length_append, l1, l2, l3, l4] at hlen
    omega

/-- Witness for `validateStep_unknown_vs_disabled`: the non-schema
action `deleteEverything` against the full allow-list (disabled message)
and against an allow-list that contains it (unknown-action message). -/
theorem validateStep_unknown_vs_disabled_witness :
    validateStep (.obj [("action", .str "deleteEverything")]) 0 AVAILABLE_TOOLS
      = ["Step 0: action \"deleteEverything\" is not in the enabled tools list"]
    ∧ validateStep (.obj [("action", .str "deleteEverything")]) 0
        ["deleteEverything"]
      = ["Step 0: unknown action \"deleteEverything\""] := by
  have h1 := validateStep_unknown_vs_disabled
    (.obj [("action", .str "deleteEverything")]) 0 AVAILABLE_TOOLS
    "deleteEverything" (by decide) rfl
  have h2 := validateStep_unknown_vs_disabled
    (.obj [("action", .str "deleteEverything")]) 0 ["deleteEverything"]
    "deleteEverything" (by decide) rfl
  refine ⟨?_, ?_⟩
  · rw [h1.1 (by decide)]; decide
  · rw [h2.2.1 (by decide) (by decide)]; decide

/-- Whenever the input is object-like and its `steps` field is an array,
the validator's error list is exactly the concatenation, in order, of
the per-step error lists. -/
theorem validateActionPlan_errors_eq (raw : JValue) (stepsJ : List JValue)
    (tools : List String)
    (h1 : raw.isObjectLike = true) (h2 : jGetArr raw "steps" = some stepsJ) :
    (validateActionPlan raw tools).errors
      = stepsJ.enum.flatMap (fun p => validateStep p.2 p.1 tools) := by
  by_cases he : stepsJ.enum.flatMap (fun p => validateStep p.2 p.1 tools) = []
  · simp [validateActionPlan, h1, h2, he]
  · simp [validateActionPlan, h1, h2, he]

set_option maxHeartbeats 1600000 in
/-- Every error produced by `validateStep` for step `index` is built
with the `Step ${index}: ...` template. -/
theorem validateStep_msg_shape (step : JValue) (index : Nat)
    (tools : List String) :
    ∀ e ∈ validateStep step index tools, ∃ m, e = stepMsg index m := by
  intro e he
  unfold validateStep at he
  repeat' split at he
  all_goals simp only [List.mem_append, List.mem_singleton,
    List.not_mem_nil, or_false, false_or] at he
  all_goals first
    | exact absurd he not_false
    | exact ⟨_, he⟩
    | (rcases he with he | he <;> exact ⟨_, he⟩)

/-- C7: for every input whose `steps` field is an array, validation runs
on every element in order and accumulates all errors without stopping;
in particular a two-step plan whose steps each miss a different required
field is invalid with exactly two errors, one per step, each naming its
own 0-based index. -/
theorem validateActionPlan_accumulates (raw : JValue) (stepsJ : List JValue)
    (tools : List String)
    (h1 : raw.isObjectLike = true) (h2 : jGetArr raw "steps" = some stepsJ) :
    (validateActionPlan raw tools).errors
      = stepsJ.enum.flatMap (fun p => validateStep p.2 p.1 tools)
    ∧ (validateActionPlan
        (.obj [("steps", .arr [.obj [("action", .str "goto")],
                               .obj [("action", .str "screenshot")]])])
        AVAILABLE_TOOLS).valid = false
    ∧ (validateActionPlan
        (.obj [("steps", .arr [.obj [("action", .str "goto")],
                               .obj [("action", .str "screenshot")]])])
        AVAILABLE_TOOLS).errors
      = ["Step 0: \"goto\" requires a non-empty \"url\" string",
         "Step 1: \"screenshot\" requires a non-empty \"name\" string"] := by
  exact ⟨validateActionPlan_errors_eq raw stepsJ tools h1 h2, by decide, by decide⟩

/-- Witness for `validateActionPlan_accumulates`: the two-step plan
`[{action: goto}, {action: screenshot}]` (each missing its required
field). -/
theorem validateActionPlan_accumulates_witness :
    (JValue.obj [("steps", .arr [.obj [("action", .str "goto")],
                                 .obj [("action", .str "screenshot")]])]).isObjectLike
      = true
    ∧ (validateActionPlan
        (.obj [("steps", .arr [.obj [("action", .str "goto")],
                               .obj [("action", .str "screenshot")]])])
        AVAILABLE_TOOLS).errors
      = ([.obj [("action", .str "goto")],
          .obj [("action", .str "screenshot")]] : List JValue).enum.flatMap
          (fun p => validateStep p.2 p.1 AVAILABLE_TOOLS) := by
  have h := validateActionPlan_accumulates
    (.obj [("steps", .arr [.obj [("action", .str "goto")],
                           .obj [("action", .str "screenshot")]])])
    [.obj [("action", .str "goto")], .obj [("action", .str "screenshot")]]
    AVAILABLE_TOOLS (by decide) rfl
  exact ⟨by decide, h.1⟩

/-- C8 counterexample: the two whole-plan structural rejections returned
by `validateActionPlan` do not follow the `Step <index>: <message>`
pattern — `"Plan must be a JSON object"` equals no string of the form
`stepMsg i m`. -/
theorem plan_level_error_breaks_pattern :
    (validateActionPlan (.str "just text") AVAILABLE_TOOLS).errors
      = ["Plan must be a JSON object"]
    ∧ (validateActionPlan (.obj [("steps", .str "nope")]) AVAILABLE_TOOLS).errors
      = ["\"steps\" must be an array"]
    ∧ ∀ i m, "Plan must be a JSON object" ≠ stepMsg i m := by
  refine ⟨by decide, by decide, ?_⟩
  intro i m heq
  have hd := congrArg String.data heq
  have hS : ("Step " : String).data = 'S' :: ("tep " : String).data := by decide
  simp only [stepMsg, String.data_append, hS, List.cons_append,
    List.append_assoc] at hd
  have hh := congrArg List.head? hd
  have hP : ("Plan must be a JSON object" : String).data.head? = some 'P' := by
    decide
  rw [hP] at hh
  simp at hh

/-- C8 (amended): every *per-step* error string — i.e. every error
whenever the `steps` field is an array — follows the pattern
`Step <index>: <message>` with a 0-based in-range index, and each
required-field error names both the step index and the field; the two
whole-plan structural errors are the only exceptions to the pattern. -/
theorem step_errors_follow_pattern (raw : JValue) (stepsJ : List JValue)
    (tools : List String)
    (h1 : raw.isObjectLike = true) (h2 : jGetArr raw "steps" = some stepsJ) :
    (∀ e ∈ (validateActionPlan raw tools).errors,
      ∃ i m, i < stepsJ.length ∧ e = stepMsg i m)
    ∧ validateStep (.obj [("action", .str "goto")]) 0 AVAILABLE_TOOLS
      = ["Step 0: \"goto\" requires a non-empty \"url\" string"]
    ∧ validateStep (.obj [("action", .str "clickText")]) 1 AVAILABLE_TOOLS
      = ["Step 1: \"clickText\" requires a non-empty \"text\" string"]
    ∧ validateStep (.obj [("action", .str "type")]) 2 AVAILABLE_TOOLS
      = ["Step 2: \"type\" requires a non-empty \"selector\" string",
         "Step 2: \"type\" requires a \"value\" string"]
    ∧ validateStep (.obj [("action", .str "waitForText")]) 3 AVAILABLE_TOOLS
      = ["Step 3: \"waitForText\" requires a non-empty \"text\" string"]
    ∧ validateStep (.obj [("action", .str "extractText")]) 4 AVAILABLE_TOOLS
      = ["Step 4: \"extractText\" requires a non-empty \"selector\" string"]
    ∧ validateStep (.obj [("action", .str "screenshot")]) 5 AVAILABLE_TOOLS
      = ["Step 5: \"screenshot\" requires a non-empty \"name\" string"] := by
  refine ⟨?_, by decide, by decide, by decide, by decide, by decide, by decide⟩
  intro e he
  rw [validateActionPlan_errors_eq raw stepsJ tools h1 h2] at he
  rcases List.mem_flatMap.mp he with ⟨p, hp, hep⟩
  have hidx : stepsJ[p.1]? = some p.2 := List.mem_enum_iff_getElem?.mp hp
  obtain ⟨hlt, -⟩ := List.getElem?_eq_some.mp hidx
  rcases validateStep_msg_shape p.2 p.1 tools e hep with ⟨m, hm⟩
  exact ⟨p.1, m, hlt, hm⟩

/-- Witness for `step_errors_follow_pattern` at the one-step plan
`[{action: goto}]`. -/
theorem step_errors_follow_pattern_witness :
    (JValue.obj [("steps", .arr [.obj [("action", .str "goto")]])]).isObjectLike
      = true
    ∧ ∀ e ∈ (validateActionPlan
        (.obj [("steps", .arr [.obj [("action", .str "goto")]])])
        AVAILABLE_TOOLS).errors,
      ∃ i m, i < 1 ∧ e = stepMsg i m := by
  have h := step_errors_follow_pattern
    (.obj [("steps", .arr [.obj [("action", .str "goto")]])])
    [.obj [("action", .str "goto")]] AVAILABLE_TOOLS (by decide) rfl
  exact ⟨by decide, fun e he => h.1 e he⟩

/-- C4: if browser launch or page creation throws, `executePlan` returns
exactly one result, tagged with the sentinel action `browser-init`
(distinct from every schema kind), failed and carrying the throw's
message; no step is attempted (the browser-call trace is empty) and the
function still returns normally. -/
theorem executePlan_init_failure (s : BrowserSession) (plan : ActionPlan)
    (e : String)
    (h : s.launch = .error e ∨ (s.launch = .ok () ∧ s.openPage = .error e)) :
    executePlan s plan = [⟨some "browser-init", false, none, some e⟩]
    ∧ (executePlanT s plan).calls = []
    ∧ "browser-init" ∉ AVAILABLE_TOOLS := by
  rcases h with h | ⟨h1, h2⟩
  · exact ⟨by simp [executePlan, executePlanT, h],
           by simp [executePlanT, h], by decide⟩
  · exact ⟨by simp [executePlan, executePlanT, h1, h2],
           by simp [executePlanT, h1, h2], by decide⟩

/-- Witness for `executePlan_init_failure`: a session whose launch
throws, and one whose page creation throws, both on `demoPlan`. -/
theorem executePlan_init_failure_witness :
    executePlan launchFailSession demoPlan
      = [⟨some "browser-init", false, none, some "browserType.launch failed"⟩]
    ∧ executePlan pageFailSession demoPlan
      = [⟨some "browser-init", false, none, some "newPage failed"⟩] := by
  have h1 := executePlan_init_failure launchFailSession demoPlan
    "browserType.launch failed" (Or.inl rfl)
  have h2 := executePlan_init_failure pageFailSession demoPlan
    "newPage failed" (Or.inr ⟨rfl, rfl⟩)
  exact ⟨h1.1, h2.1⟩

/-- Replacing the outcome of `browser.close` changes nothing about a
step's execution: `executeStepT` never consults `close`. -/
theorem executeStepT_close_irrel (s : BrowserSession) (c : Except String Unit)
    (st : ActionStep) :
    executeStepT { s with close := c } st = executeStepT s st := rfl

/-- Replacing the outcome of `browser.close` changes nothing about the
step loop. -/
theorem runSteps_close_irrel (s : BrowserSession) (c : Except String Unit) :
    ∀ l : List ActionStep, runSteps { s with close := c } l = runSteps s l
  | [] => rfl
  | st :: rest => by
    simp only [runSteps, executeStepT_close_irrel,
      runSteps_close_irrel s c rest]

/-- C5: on every exit path on which the browser was launched — normal
completion, early termination, per-step failures, or a throw during page
creation — the `finally` block closes the browser, and the outcome of
`close` is swallowed: the whole observable run outcome (results
included) is the same whatever `close` does, so a close error never
surfaces as a result, propagates, or alters collected results. -/
theorem executePlan_teardown (s : BrowserSession) (plan : ActionPlan)
    (c : Except String Unit) (h : s.launch = .ok ()) :
    (executePlanT s plan).closed = true
    ∧ executePlanT { s with close := c } plan = executePlanT s plan := by
  constructor
  · cases hp : s.openPage <;> simp [executePlanT, h, hp]
  · simp only [executePlanT, runSteps_close_irrel]

/-- Witness for `executePlan_teardown`: `allOkSession` running
`demoPlan`, with a close outcome that throws. -/
theorem executePlan_teardown_witness :
    (executePlanT allOkSession demoPlan).closed = true
    ∧ executePlanT { allOkSession with close := .error "close failed" } demoPlan
      = executePlanT allOkSession demoPlan := by
  exact executePlan_teardown allOkSession demoPlan (.error "close failed") rfl

/-- The step loop returns exactly the results of the attempted prefix,
in order. -/
theorem runSteps_results (s : BrowserSession) :
    ∀ l : List ActionStep,
      (runSteps s l).1 = (attemptedSteps l).map (executeStep s)
  | [] => rfl
  | st :: rest => by
    by_cases hc : st.action = some "closeBrowser"
    · simp [runSteps, attemptedSteps, hc, executeStep]
    · simp [runSteps, attemptedSteps, hc, executeStep,
        runSteps_results s rest]

/-- The attempted prefix agrees with the plan position by position. -/
theorem attemptedSteps_getElem? :
    ∀ (l : List ActionStep) (i : Nat), i < (attemptedSteps l).length →
      (attemptedSteps l)[i]? = l[i]?
  | [], i => by simp [attemptedSteps]
  | st :: rest, i => by
    by_cases hc : st.action = some "closeBrowser"
    · simp only [attemptedSteps, hc, if_pos]
      intro hi
      have h0 : i = 0 := by
        simpa [Nat.lt_one_iff] using hi
      subst h0
      simp
    · simp only [attemptedSteps, hc, if_neg, not_false_iff]
      cases i with
      | zero => intro _; simp
      | succ i' =>
        intro hi
        simp only [List.getElem?_cons_succ]
        exact attemptedSteps_getElem? rest i' (by simpa using hi)

/-- Position `i` lies in the attempted prefix iff it lies in the plan
and no strictly earlier step is a `closeBrowser`. -/
theorem attemptedSteps_length_iff :
    ∀ (l : List ActionStep) (i : Nat),
      i < (attemptedSteps l).length ↔
        (i < l.length ∧ ∀ j, j < i → ∀ st : ActionStep, l[j]? = some st →
          st.action ≠ some "closeBrowser")
  | [], i => by simp [attemptedSteps]
  | st :: rest, i => by
    by_cases hc : st.action = some "closeBrowser"
    · simp only [attemptedSteps, hc, if_pos, List.length_singleton,
        List.length_cons]
      cases i with
      | zero =>
        constructor
        · intro _
          exact ⟨by simp, fun j hj => absurd hj (Nat.not_lt_zero j)⟩
        · intro _
          simp
      | succ i' =>
        constructor
        · intro hi
          simp [Nat.lt_one_iff] at hi
        · rintro ⟨-, hall⟩
          exact absurd hc (hall 0 (Nat.succ_pos i') st (by simp))
    · simp only [attemptedSteps, hc, if_neg, not_false_iff, List.length_cons]
      cases i with
      | zero =>
        simp only [Nat.zero_lt_succ, true_iff, true_and]
        exact fun j hj => absurd hj (Nat.not_lt_zero j)
      | succ i' =>
        have ih := attemptedSteps_length_iff rest i'
        constructor
        · intro hi
          have hi' : i' < (attemptedSteps rest).length := by
            simpa using hi
          obtain ⟨h1, h2⟩ := ih.mp hi'
          refine ⟨by omega, ?_⟩
          intro j hj stj hstj
          cases j with
          | zero =>
            simp only [List.getElem?_cons_zero, Option.some.injEq] at hstj
            subst hstj; exact hc
          | succ j' =>
            simp only [List.getElem?_cons_succ] at hstj
            exact h2 j' (by omega) stj hstj
        · rintro ⟨h1, h2⟩
          have : i' < (attemptedSteps rest).length := by
            refine ih.mpr ⟨by omega, ?_⟩
            intro j hj stj hstj
            exact h2 (j + 1) (by omega) stj (by simpa using hstj)
          simpa using this

/-- C1: with session initialization succeeding, `executePlan` returns
exactly one result per attempted step, in plan order; position `i` is
attempted iff no strictly earlier step has action `closeBrowser` (the
`closeBrowser` step itself is attempted, then the loop breaks); and a
`closeBrowser` step's result is always success with no data. -/
theorem executePlan_one_result_per_attempted_step (s : BrowserSession)
    (plan : ActionPlan) (hL : s.launch = .ok ()) (hP : s.openPage = .ok ()) :
    executePlan s plan = (attemptedSteps plan.steps).map (executeStep s)
    ∧ (∀ i : Nat, i < (attemptedSteps plan.steps).length →
        (attemptedSteps plan.steps)[i]? = plan.steps[i]?)
    ∧ (∀ i : Nat, i < (attemptedSteps plan.steps).length ↔
        (i < plan.steps.length ∧
          ∀ j, j < i → ∀ st : ActionStep, plan.steps[j]? = some st →
            st.action ≠ some "closeBrowser"))
    ∧ (∀ st : ActionStep, st.action = some "closeBrowser" →
        executeStep s st = ⟨some "closeBrowser", true, none, none⟩) := by
  refine ⟨?_, attemptedSteps_getElem? plan.steps,
    attemptedSteps_length_iff plan.steps, ?_⟩
  · simp [executePlan, executePlanT, hL, hP, runSteps_results]
  · intro st hst
    simp [executeStep, executeStepT, hst]

/-- Witness for `executePlan_one_result_per_attempted_step`: the plan
`[goto, closeBrowser, screenshot]` in `allOkSession` yields exactly two
results — the screenshot step is never attempted. -/
theorem executePlan_one_result_per_attempted_step_witness :
    executePlan allOkSession demoPlan
      = (attemptedSteps demoPlan.steps).map (executeStep allOkSession)
    ∧ executePlan allOkSession demoPlan
      = [⟨some "goto", true, none, none⟩,
         ⟨some "closeBrowser", true, none, none⟩]
    ∧ (executePlan allOkSession demoPlan).length = 2 := by
  have h := executePlan_one_result_per_attempted_step allOkSession demoPlan
    rfl rfl
  exact ⟨h.1, by decide, by decide⟩

/-- A non-empty-string field check yields the string payload. -/
theorem nonEmptyString_asString (v : Option JValue)
    (h : nonEmptyString v = true) :
    ∃ u, asString v = some u ∧ u ≠ "" := by
  cases v with
  | none => simp [nonEmptyString] at h
  | some j =>
    cases j with
    | str u => exact ⟨u, rfl, by simpa [nonEmptyString] using h⟩
    | null => simp [nonEmptyString] at h
    | bool b => simp [nonEmptyString] at h
    | num n => simp [nonEmptyString] at h
    | arr l => simp [nonEmptyString] at h
    | obj l => simp [nonEmptyString] at h

/-- Inversion of a per-step validation success: the step is object-like,
its action is a string in the allow-list, and a `goto` step has a
non-empty string `url` field. -/
theorem validateStep_nil_inv (stepJ : JValue) (i : Nat) (tools : List String)
    (h : validateStep stepJ i tools = []) :
    stepJ.isObjectLike = true
    ∧ ∃ a, asString (stepJ.get "action") = some a ∧ a ∈ tools
      ∧ (a = "goto" → nonEmptyString (stepJ.get "url") = true) := by
  by_cases hobj : stepJ.isObjectLike
  · cases ha : asString (stepJ.get "action") with
    | none => simp [validateStep, hobj, ha] at h
    | some a =>
      by_cases hc : tools.contains a
      · have hmem : a ∈ tools := by simpa using hc
        refine ⟨hobj, a, rfl, hmem, ?_⟩
        intro hg
        subst hg
        by_cases hu : nonEmptyString (stepJ.get "url")
        · exact hu
        · simp [validateStep, hobj, ha, hmem, hu] at h
      · have hnm : a ∉ tools := by simpa using hc
        simp [validateStep, hobj, ha, hnm] at h
  · simp [validateStep, hobj] at h

/-- Inversion of a successful `validateActionPlan`: the returned plan is
the cast of the input's `steps` array and every step validated with no
errors. -/
theorem validateActionPlan_plan_inv (raw : JValue) (tools : List String)
    (plan : ActionPlan)
    (hv : (validateActionPlan raw tools).plan = some plan) :
    ∃ stepsJ, jGetArr raw "steps" = some stepsJ
      ∧ plan.steps = stepsJ.map toActionStep
      ∧ ∀ p ∈ stepsJ.enum, validateStep p.2 p.1 tools = [] := by
  by_cases h1 : raw.isObjectLike
  · cases h2 : jGetArr raw "steps" with
    | none => simp [validateActionPlan, h1, h2] at hv
    | some stepsJ =>
      by_cases he : (stepsJ.enum.flatMap fun p => validateStep p.2 p.1 tools) = []
      · refine ⟨stepsJ, rfl, ?_, fun p hp => List.flatMap_eq_nil_iff.mp he p hp⟩
        simp [validateActionPlan, h1, h2, he] at hv
        rw [← hv]
      · simp [validateActionPlan, h1, h2, he] at hv
  · simp [validateActionPlan, h1] at hv

/-- A `goto` step with a non-empty url always runs (and stays in) the
`goto` arm, never the defensive no-url sub-branch. -/
theorem executeStepT_goto_tag (s : BrowserSession) (st : ActionStep)
    (u : String) (ha : st.action = some "goto") (hu : st.url = some u)
    (hne : u ≠ "") :
    (executeStepT s st).tag = BranchTag.goto := by
  simp only [executeStepT, ha, hu, if_pos, hne, if_neg, not_false_iff]
  cases hp : s.parseURL u with
  | error m => simp [hp, hne]
  | ok protocol =>
    by_cases hpr : protocol ≠ "http:" ∧ protocol ≠ "https:"
    · simp [hp, hne, hpr]
    · cases hans : s.answer (.goto u) <;> simp [hp, hne, hpr, hans]

/-- A step whose action is any schema kind other than `goto` runs the
arm of that kind, whatever the browser answers. -/
theorem executeStepT_kind_tag (s : BrowserSession) (st : ActionStep)
    (a : String) (ha : st.action = some a) (hA : a ∈ AVAILABLE_TOOLS)
    (hg : a ≠ "goto") :
    (executeStepT s st).tag = kindTag a := by
  simp only [AVAILABLE_TOOLS, List.mem_cons, List.not_mem_nil, or_false] at hA
  rcases hA with rfl | rfl | rfl | rfl | rfl | rfl | rfl | rfl
  · exact absurd rfl hg
  · cases h : s.answer (.clickText st.text) <;>
      simp [executeStepT, ha, kindTag, h]
  · cases h : s.answer (.fill st.selector st.value) <;>
      simp [executeStepT, ha, kindTag, h]
  · cases h : s.answer (.waitForText st.text) <;>
      simp [executeStepT, ha, kindTag, h]
  · cases h : s.answer (.innerText st.selector) <;>
      simp [executeStepT, ha, kindTag, h]
  · cases h : s.answer .bodyText <;>
      simp [executeStepT, ha, kindTag, h]
  · cases hn : st.name with
    | none => simp [executeStepT, ha, kindTag, hn]
    | some n =>
      cases h : s.answer (.screenshot (screenshotPath s.tmpdir n)) <;>
        simp [executeStepT, ha, kindTag, hn, h]
  · simp [executeStepT, ha, kindTag]

/-- C9: for a plan accepted by `validateActionPlan` under an allow-list
that is a subset of `AVAILABLE_TOOLS`, the runner's defensive branches
are unreachable on every step of the plan, with any browser behavior:
no step runs the `"url" is required for goto` sub-branch or the
`Unknown action` default arm — each step's result comes from the arm of
that step's actual action kind. -/
theorem validated_plan_avoids_defensive_branches (raw : JValue)
    (tools : List String) (plan : ActionPlan) (s : BrowserSession)
    (hsub : ∀ t ∈ tools, t ∈ AVAILABLE_TOOLS)
    (hv : (validateActionPlan raw tools).plan = some plan) :
    ∀ st ∈ plan.steps,
      (executeStepT s st).tag ≠ BranchTag.gotoNoUrl
      ∧ (executeStepT s st).tag ≠ BranchTag.unknown
      ∧ ∃ a, st.action = some a ∧ (executeStepT s st).tag = kindTag a := by
  obtain ⟨stepsJ, hstepsJ, hplan, hall⟩ :=
    validateActionPlan_plan_inv raw tools plan hv
  intro st hst
  rw [hplan] at hst
  rcases List.mem_map.mp hst with ⟨j, hj, rfl⟩
  rcases List.mem_iff_getElem?.mp hj with ⟨i, hij⟩
  have hnil := hall (i, j) (List.mem_enum_iff_getElem?.mpr hij)
  obtain ⟨hobj, a, ha, hatools, hgoto⟩ := validateStep_nil_inv j i tools hnil
  have haA : a ∈ AVAILABLE_TOOLS := hsub a hatools
  have hact : (toActionStep j).action = some a := ha
  have htag : (executeStepT s (toActionStep j)).tag = kindTag a := by
    by_cases hg : a = "goto"
    · subst hg
      obtain ⟨u, hu, hune⟩ := nonEmptyString_asString _ (hgoto rfl)
      exact executeStepT_goto_tag s (toActionStep j) u hact hu hune
    · exact executeStepT_kind_tag s (toActionStep j) a hact haA hg
  have hnd : kindTag a ≠ BranchTag.gotoNoUrl ∧ kindTag a ≠ BranchTag.unknown := by
    simp only [AVAILABLE_TOOLS, List.mem_cons, List.not_mem_nil,
      or_false] at haA
    rcases haA with rfl | rfl | rfl | rfl | rfl | rfl | rfl | rfl <;> decide
  exact ⟨htag ▸ hnd.1, htag ▸ hnd.2, a, hact, htag⟩

/-- Witness for `validated_plan_avoids_defensive_branches`: the accepted
plan `{"steps":[{"action":"goto","url":"https://example.com"},
{"action":"closeBrowser"}]}` with the full allow-list in
`allOkSession`. -/
theorem validated_plan_avoids_defensive_branches_witness :
    (validateActionPlan
        (.obj [("steps", .arr
          [.obj [("action", .str "goto"), ("url", .str "https://example.com")],
           .obj [("action", .str "closeBrowser")]])]) AVAILABLE_TOOLS).plan
      = some { steps := [gotoStep, closeStep] }
    ∧ ∀ st ∈ ({ steps := [gotoStep, closeStep] } : ActionPlan).steps,
        (executeStepT allOkSession st).tag ≠ BranchTag.gotoNoUrl
        ∧ (executeStepT allOkSession st).tag ≠ BranchTag.unknown
        ∧ ∃ a, st.action = some a
          ∧ (executeStepT allOkSession st).tag = kindTag a := by
  refine ⟨by decide, ?_⟩
  exact validated_plan_avoids_defensive_branches
    (.obj [("steps", .arr
      [.obj [("action", .str "goto"), ("url", .str "https://example.com")],
       .obj [("action", .str "closeBrowser")]])])
    AVAILABLE_TOOLS { steps := [gotoStep, closeStep] } allOkSession
    (fun t ht => ht) (by decide)

end PCR
